import Mathlib

/-!
Shallow embedding of `src/tracker.py` (a Find My item tracker: poll →
dedupe → persist → serve pipeline).

Conventions of the embedding:
* Python floats are modelled as `ℚ`.  Python 3 guarantees that
  `float(str(x)) == x` exactly for every float `x`, so a CSV cell written
  from a float is modelled by the rational value it round-trips to
  (`Cell.ofNum`); a cell whose text is not a valid float literal is
  `Cell.ofStr` (its `parseFloat?` is `none`, modelling the `ValueError`
  raised by Python's `float`).
* `datetime.fromtimestamp(u).strftime('%Y-%m-%d %H:%M:%S')` is a pure
  function of the unix time `u` (and the fixed local timezone); it is
  modelled by an arbitrary formatting parameter `fmt : ℚ → String`.
* Dictionaries returned by the snapshot provider are modelled by
  structures with `Option` fields (`none` = key absent or JSON null);
  `dict.get(k)` is field access, `dict.get(k, d)` is `Option.getD`.
* One iteration of the `track_for_server` loop body (lines 112-137) is
  the pure step `track_for_server_step`; a run of the loop over a list
  of fetch outcomes is a `List.foldl` of the step.  The `except
  Exception` handler at the iteration boundary is modelled by the step
  being a total function: every outcome, including a failed log write
  (`writeOk = false`), yields a next state and the fold continues.
-/

namespace Tracker

/-- The `location` sub-dictionary of a device record: `latitude`,
`longitude` and `timeStamp` (milliseconds) may each be absent or null. -/
structure Location where
  latitude : Option ℚ
  longitude : Option ℚ
  timeStamp : Option ℚ
deriving DecidableEq

/-- A device record from a snapshot: `item.get('name')` and
`item.get('location')` (absent / null / falsy location is `none`). -/
structure Item where
  name : Option String
  location : Option Location
deriving DecidableEq

/-- One entry of `tracked_coordinates`: the dict
`{'lat': latitude, 'lon': longitude, 'ts': timestamp_human}`.  `lat` is
always a number (the code checks `location.get('latitude') is not None`
before building the dict) but `lon` may be Python `None`. -/
structure Coord where
  ts : String
  lat : ℚ
  lon : Option ℚ
deriving DecidableEq

/-- A CSV cell.  `ofNum q` is a cell written from the float `q` (Python
`str`/`float` round-trip is exact, so the cell is identified with its
value); `ofStr s` is a cell whose text `s` is not a valid float literal. -/
inductive Cell where
  | ofStr (s : String)
  | ofNum (q : ℚ)
deriving DecidableEq

/-- Python `float(cell)`: succeeds exactly on numeric cells. -/
def Cell.parseFloat? : Cell → Option ℚ
  | .ofStr _ => none
  | .ofNum q => some q

/-- The raw text of a cell (used for the `timestamp` column, which the
reload reads back as a plain string, `row[0]`). -/
def Cell.asText : Cell → String
  | .ofStr s => s
  | .ofNum q => toString q

/-- The header row `['timestamp', 'latitude', 'longitude']` written when
the log file is created (line 296). -/
def headerRow : List Cell :=
  [Cell.ofStr "timestamp", Cell.ofStr "latitude", Cell.ofStr "longitude"]

/-- The log row `[timestamp_human, latitude, longitude]` written for an
accepted coordinate (line 134).  A `None` longitude is written as the
text `str(None) = "None"`, which is not a float literal. -/
def coordToRow (c : Coord) : List Cell :=
  [Cell.ofStr c.ts, Cell.ofNum c.lat,
   match c.lon with
   | some q => Cell.ofNum q
   | none => Cell.ofStr "None"]

/-- `tracked_coordinates[-1]['ts']` for a non-empty list, `none` when the
list is empty (where the code short-circuits on `not tracked_coordinates`). -/
def lastTs : List Coord → Option String
  | [] => none
  | [c] => some c.ts
  | _ :: c :: rest => lastTs (c :: rest)

/-- The append-with-dedup step of `track_for_server` (lines 129-130):
`if not tracked_coordinates or tracked_coordinates[-1]['ts'] != new_coord['ts']`
append `new_coord`, else do nothing.  The boolean reports whether the
record was inserted. -/
def append (hist : List Coord) (c : Coord) : List Coord × Bool :=
  match lastTs hist with
  | none => (hist ++ [c], true)
  | some t => if t ≠ c.ts then (hist ++ [c], true) else (hist, false)

/-- The shared state touched by one server-tracking iteration: the
in-memory `tracked_coordinates` list and the rows of the CSV log file. -/
structure ServerState where
  history : List Coord
  log : List (List Cell)
deriving DecidableEq

/-- Lines 128-134: under the lock, offer `c` to the dedup check; on
insertion also append one row to the log file.  `writeOk = false` models
the `open`/`writerow` call raising after the in-memory append (the
exception is caught by the iteration-level handler, so the state reached
at that point — memory extended, log unchanged — is the next state). -/
def appendAndPersist (writeOk : Bool) (st : ServerState) (c : Coord) : ServerState :=
  match append st.history c with
  | (h2, true) =>
      { history := h2, log := if writeOk then st.log ++ [coordToRow c] else st.log }
  | (_, false) => st

/-- Lines 118-126: find the exact-name match in the snapshot, require a
truthy `location` with non-None `latitude`, and build the coordinate dict.
`timestamp_unix = location.get('timeStamp', 0) / 1000` and
`timestamp_human = fmt timestamp_unix`. -/
def extract (fmt : ℚ → String) (nm : String) (items : List Item) : Option Coord :=
  match items.find? (fun it => it.name == some nm) with
  | none => none
  | some it =>
    match it.location with
    | none => none
    | some loc =>
      match loc.latitude with
      | none => none
      | some la => some ⟨fmt (loc.timeStamp.getD 0 / 1000), la, loc.longitude⟩

/-- One iteration of the `track_for_server` loop body (lines 112-137).
`fetched` is the outcome of `get_data_snapshot` (`none` = fetch failed).
`if not all_items: continue`; no name match or no usable location leaves
the state unchanged; otherwise the record is offered to
`appendAndPersist`.  Totality of this function models the
`except Exception` handler: no iteration outcome terminates the loop. -/
def track_for_server_step (fmt : ℚ → String) (nm : String) (writeOk : Bool)
    (fetched : Option (List Item)) (st : ServerState) : ServerState :=
  match fetched with
  | none => st
  | some items =>
    if items.isEmpty then st
    else
      match extract fmt nm items with
      | none => st
      | some c => appendAndPersist writeOk st c

/-- A run of the `track_for_server` loop over a list of per-iteration
fetch outcomes. -/
def track_for_server_run (fmt : ℚ → String) (nm : String) (writeOk : Bool)
    (inputs : List (Option (List Item))) (st : ServerState) : ServerState :=
  inputs.foldl (fun s i => track_for_server_step fmt nm writeOk i s) st

/-- Folding bare appends (the in-memory dedup only), ignoring the log. -/
def appendAll (hist : List Coord) (cs : List Coord) : List Coord :=
  cs.foldl (fun h c => (append h c).1) hist

/-- A minimal JSON value, for the shape of the `/api/data` response. -/
inductive Json where
  | null
  | num (q : ℚ)
  | str (s : String)
  | arr (elems : List Json)
  | obj (fields : List (String × Json))

/-- JSON serialization of a possibly-None longitude. -/
def lonJson : Option ℚ → Json
  | some q => Json.num q
  | none => Json.null

/-- `jsonify` of one `tracked_coordinates` entry: the object
`{"lat": ..., "lon": ..., "ts": ...}` (Python dict insertion order). -/
def coordJson (c : Coord) : Json :=
  Json.obj [("lat", Json.num c.lat), ("lon", lonJson c.lon), ("ts", Json.str c.ts)]

/-- The `/api/data` handler (lines 244-247): under the lock, return HTTP
200 with `jsonify(tracked_coordinates)`; the state is returned unchanged
(the handler only reads). -/
def api_data (st : ServerState) : (ℕ × Json) × ServerState :=
  ((200, Json.arr (st.history.map coordJson)), st)

/-- The reload loop of `main` (lines 286-291) after the header has been
consumed: a row with fewer than three cells is skipped
(`if len(row) >= 3`) and iteration continues; on a row with at least
three cells, `float(row[1])` then `float(row[2])` are evaluated, and the
first `ValueError` propagates to the `except` around the whole loop, so
parsing stops and the accumulator so far is the result. -/
def reloadLoop : List (List Cell) → List Coord → List Coord
  | [], acc => acc
  | (c0 :: c1 :: c2 :: _) :: rest, acc =>
      match c1.parseFloat?, c2.parseFloat? with
      | some la, some lo => reloadLoop rest (acc ++ [⟨c0.asText, la, some lo⟩])
      | _, _ => acc
  | _ :: rest, acc => reloadLoop rest acc

/-- Reload of an existing log file at startup (lines 281-292):
`next(reader, None)` drops the first row (the header), then the row loop
runs starting from the empty `tracked_coordinates`. -/
def reload (fileRows : List (List Cell)) : List Coord :=
  reloadLoop (fileRows.drop 1) []

/-- Modelled from the spec for comparison only (the "restore" behavior
the spec describes): every malformed row — wrong column count or a
non-numeric coordinate — is skipped individually and parsing continues
with the next row. -/
def reloadSpecLoop : List (List Cell) → List Coord → List Coord
  | [], acc => acc
  | (c0 :: c1 :: c2 :: _) :: rest, acc =>
      match c1.parseFloat?, c2.parseFloat? with
      | some la, some lo => reloadSpecLoop rest (acc ++ [⟨c0.asText, la, some lo⟩])
      | _, _ => reloadSpecLoop rest acc
  | _ :: rest, acc => reloadSpecLoop rest acc

/-- The two candidate `Items.data` paths probed by `find_database_file`
(lines 18-21), as functions of the home directory. -/
def possiblePaths (home : String) : List String :=
  [home ++ "/Library/Caches/com.apple.findmy.fmipcore/Items.data",
   home ++ "/Library/Application Support/com.apple.findmy/Items.data"]

/-- `find_database_file` (lines 16-28): return the first candidate path
that exists, else `none` (after printing a diagnostic). -/
def find_database_file (pathExists : String → Bool) (home : String) : Option String :=
  (possiblePaths home).find? pathExists

/-- The parsed CLI command of `main`. -/
inductive Command where
  | dump (output : String)
  | track (nm output : String) (interval : ℕ)
  | serve (nm : String) (output : Option String) (interval : ℕ) (host : String) (port : ℕ)
deriving DecidableEq

/-- What `main` does after parsing arguments: abort (lines 270-272,
`if not db_path: return`, before any command body, loop or server runs),
or dispatch the command with the located data source path. -/
inductive MainResult where
  | abortedNoSource
  | ran (dbPath : String) (cmd : Command)
deriving DecidableEq

/-- The startup guard of `main` (lines 268-278): locate the data source
first; only with a located path is any command dispatched. -/
def main (pathExists : String → Bool) (home : String) (cmd : Command) : MainResult :=
  match find_database_file pathExists home with
  | none => MainResult.abortedNoSource
  | some p => MainResult.ran p cmd

/- Concrete sample values used by witness theorems. -/

/-- A concrete timestamp formatter for witnesses. -/
def fmtC : ℚ → String := fun q => if q = 1 then "T1" else "T2"

/-- A device record named "A" whose location has timeStamp 1000 ms. -/
def itm1 : Item := ⟨some "A", some ⟨some 1, some 2, some 1000⟩⟩

/-- A device record named "A" whose location has timeStamp 2000 ms. -/
def itm2 : Item := ⟨some "A", some ⟨some 3, some 4, some 2000⟩⟩

/-- A device record named "B" (never matches the tracked name "A"). -/
def itmB : Item := ⟨some "B", some ⟨some 9, some 9, some 9000⟩⟩

/-- A device record named "A" whose location has latitude but no
timeStamp field. -/
def itmNoTs : Item := ⟨some "A", some ⟨some 5, some 6, none⟩⟩

/-- The coordinate extracted from `itm1` under `fmtC`. -/
def cT1 : Coord := ⟨"T1", 1, some 2⟩

/-- The coordinate extracted from `itm2` under `fmtC`. -/
def cT2 : Coord := ⟨"T2", 3, some 4⟩

/-- A log file whose first data row has a non-numeric latitude cell and
whose second data row is well-formed. -/
def badLogC3 : List (List Cell) :=
  [headerRow,
   [Cell.ofStr "2024-01-01 00:00:00", Cell.ofStr "abc", Cell.ofNum 2],
   [Cell.ofStr "2024-01-01 00:01:00", Cell.ofNum 3, Cell.ofNum 4]]

/-- The last timestamp of a history extended by one record. -/
theorem lastTs_append_singleton (hist : List Coord) (c : Coord) :
    lastTs (hist ++ [c]) = some c.ts := by
  induction hist with
  | nil => rfl
  | cons a t ih =>
    cases t with
    | nil => rfl
    | cons b t2 => simpa [lastTs] using ih

/-- An append whose timestamp differs from the last stored one (or lands
in an empty history) is inserted. -/
theorem append_of_lastTs_ne (hist : List Coord) (c : Coord)
    (h : lastTs hist ≠ some c.ts) : append hist c = (hist ++ [c], true) := by
  cases hl : lastTs hist with
  | none => simp [append, hl]
  | some t =>
    have ht : t ≠ c.ts := fun he => h (by rw [hl, he])
    simp [append, hl, ht]

/-- The two possible outcomes of `append`. -/
theorem append_eq_or (hist : List Coord) (c : Coord) :
    append hist c = (hist ++ [c], true) ∨ append hist c = (hist, false) := by
  cases hl : lastTs hist with
  | none => left; simp [append, hl]
  | some t =>
    by_cases ht : t = c.ts
    · right; simp [append, hl, ht]
    · left; simp [append, hl, ht]

/-- A reported insertion really appended the record at the end. -/
theorem append_snd_true (hist : List Coord) (c : Coord)
    (h : (append hist c).2 = true) : append hist c = (hist ++ [c], true) := by
  rcases append_eq_or hist c with he | he
  · exact he
  · rw [he] at h; cases h

/-- A successful extraction implies the snapshot was non-empty (so the
`if not all_items` guard did not fire). -/
theorem extract_ne_nil (fmt : ℚ → String) (nm : String) (items : List Item)
    (c : Coord) (h : extract fmt nm items = some c) : items ≠ [] := by
  intro he
  subst he
  simp [extract] at h

/-- On a snapshot from which a coordinate is extracted, the iteration
reduces to the locked append-and-persist section. -/
theorem step_extract_some (fmt : ℚ → String) (nm : String) (w : Bool)
    (items : List Item) (st : ServerState) (c : Coord)
    (h : extract fmt nm items = some c) :
    track_for_server_step fmt nm w (some items) st = appendAndPersist w st c := by
  have hne : items ≠ [] := extract_ne_nil fmt nm items c h
  have hemp : items.isEmpty = false := by
    cases items with
    | nil => exact absurd rfl hne
    | cons a t => rfl
  simp [track_for_server_step, hemp, h]

/-- A failed iteration (fetch failure, empty snapshot, no name match, or
no usable location) leaves the state unchanged. -/
theorem step_failure_id (fmt : ℚ → String) (nm : String) (w : Bool)
    (inp : Option (List Item)) (st : ServerState)
    (h : inp = none ∨ ∃ items, inp = some items ∧ extract fmt nm items = none) :
    track_for_server_step fmt nm w inp st = st := by
  rcases h with h | ⟨items, hi, hx⟩
  · simp [track_for_server_step, h]
  · subst hi
    cases he : items.isEmpty <;> simp [track_for_server_step, he, hx]

/-- A run of accepted appends with pairwise-distinct consecutive
timestamps inserts every record and writes one log row per record. -/
theorem run_persist_all (recs : List Coord) :
    ∀ (h : List Coord) (lg : List (List Cell)),
      List.Chain' (fun a b => a.ts ≠ b.ts) recs →
      (∀ r, recs.head? = some r → lastTs h ≠ some r.ts) →
      recs.foldl (appendAndPersist true) ⟨h, lg⟩
        = ⟨h ++ recs, lg ++ recs.map coordToRow⟩ := by
  induction recs with
  | nil => intro h lg _ _; simp
  | cons r rest ih =>
    intro h lg hch hhead
    have hne : lastTs h ≠ some r.ts := hhead r rfl
    have hstep : appendAndPersist true ⟨h, lg⟩ r = ⟨h ++ [r], lg ++ [coordToRow r]⟩ := by
      simp [appendAndPersist, append_of_lastTs_ne h r hne]
    have hhead2 : ∀ r2, rest.head? = some r2 → lastTs (h ++ [r]) ≠ some r2.ts := by
      intro r2 hr2
      rw [lastTs_append_singleton]
      intro he
      injection he with he
      exact (List.chain'_cons'.mp hch).1 r2 (Option.mem_def.mpr hr2) he
    rw [List.foldl_cons, hstep, ih (h ++ [r]) (lg ++ [coordToRow r])
      ((List.chain'_cons'.mp hch).2) hhead2]
    simp

/-- Reloading the rows written for coordinates with numeric longitudes
recovers exactly those coordinates, in order. -/
theorem reloadLoop_coordToRow (recs : List Coord) :
    ∀ acc : List Coord, (∀ c ∈ recs, c.lon.isSome) →
      reloadLoop (recs.map coordToRow) acc = acc ++ recs := by
  induction recs with
  | nil => intro acc _; simp [reloadLoop]
  | cons c rest ih =>
    intro acc hall
    obtain ⟨q, hq⟩ := Option.isSome_iff_exists.mp (hall c (List.mem_cons_self c rest))
    have hrow : coordToRow c = [Cell.ofStr c.ts, Cell.ofNum c.lat, Cell.ofNum q] := by
      simp [coordToRow, hq]
    have hcoord : (⟨c.ts, c.lat, some q⟩ : Coord) = c := by
      cases c
      simp_all
    calc reloadLoop ((c :: rest).map coordToRow) acc
        = reloadLoop (coordToRow c :: rest.map coordToRow) acc := by rw [List.map_cons]
      _ = reloadLoop (rest.map coordToRow) (acc ++ [⟨c.ts, c.lat, some q⟩]) := by
          rw [hrow]
          simp [reloadLoop, Cell.parseFloat?, Cell.asText]
      _ = reloadLoop (rest.map coordToRow) (acc ++ [c]) := by rw [hcoord]
      _ = (acc ++ [c]) ++ rest :=
          ih (acc ++ [c]) (fun x hx => hall x (List.mem_cons_of_mem c hx))
      _ = acc ++ (c :: rest) := by simp

/-- C1: for every history state and every record offered to append, if
the history is non-empty and the record's `ts` equals the last stored
record's `ts`, the record is discarded, the history is unchanged and the
result is "not inserted"; otherwise the record is appended at the end
and the result is "inserted". -/
theorem append_dedup_contract (hist : List Coord) (c : Coord) :
    (lastTs hist = some c.ts → append hist c = (hist, false)) ∧
    (lastTs hist ≠ some c.ts → append hist c = (hist ++ [c], true)) := by
  constructor
  · intro h
    simp [append, h]
  · intro h
    cases hl : lastTs hist with
    | none => simp [append, hl]
    | some t =>
      have ht : t ≠ c.ts := by
        intro he
        exact h (by rw [hl, he])
      simp [append, hl, ht]

/-- Witness for C1 at concrete inputs: a duplicate of the last timestamp
is rejected with no state change, and an append to the empty history is
inserted. -/
theorem append_dedup_contract_witness :
    append [cT1] ⟨"T1", 7, some 8⟩ = ([cT1], false) ∧
    append [] cT1 = ([cT1], true) :=
  ⟨(append_dedup_contract [cT1] ⟨"T1", 7, some 8⟩).1 (by decide),
   (append_dedup_contract [] cT1).2 (by decide)⟩

/-- C4: deduplication is only against the immediately preceding entry,
never the whole history: an append whose timestamp differs from the last
stored one is inserted regardless of earlier entries, and appending
records with timestamps t1, t2, t1 (t1 ≠ t2) yields exactly [c1, c2, c3]
of length 3. -/
theorem dedup_only_last_entry :
    (∀ (hist : List Coord) (c : Coord), lastTs hist ≠ some c.ts →
      (append hist c).2 = true) ∧
    (∀ c1 c2 c3 : Coord, c1.ts ≠ c2.ts → c2.ts ≠ c3.ts → c3.ts = c1.ts →
      appendAll [] [c1, c2, c3] = [c1, c2, c3]) := by
  constructor
  · intro hist c h
    rw [append_of_lastTs_ne hist c h]
  · intro c1 c2 c3 h12 h23 _
    have s1 : append [] c1 = ([c1], true) := by simp [append, lastTs]
    have s2 : append [c1] c2 = ([c1, c2], true) := by
      simp [append, lastTs, h12]
    have s3 : append [c1, c2] c3 = ([c1, c2, c3], true) := by
      simp [append, lastTs, h23]
    simp [appendAll, List.foldl, s1, s2, s3]

/-- Witness for C4 at concrete inputs: timestamps "T1", "T2", "T1" give
a history of length 3. -/
theorem dedup_only_last_entry_witness :
    appendAll [] [cT1, cT2, ⟨"T1", 5, some 6⟩] = [cT1, cT2, ⟨"T1", 5, some 6⟩] :=
  dedup_only_last_entry.2 cT1 cT2 ⟨"T1", 5, some 6⟩ (by decide) (by decide) (by decide)

/-- C6: the read API's single operation returns the current history
serialized as an ordered JSON array of objects with fields "lat", "lon",
"ts" (in that order), with HTTP status 200; it does not mutate the
state; and on an empty history it returns the empty array with status
200 rather than an error. -/
theorem api_data_read_only (st : ServerState) :
    (api_data st).2 = st ∧
    (api_data st).1.1 = 200 ∧
    (api_data st).1.2 = Json.arr (st.history.map (fun c =>
      Json.obj [("lat", Json.num c.lat), ("lon", lonJson c.lon), ("ts", Json.str c.ts)])) ∧
    (st.history = [] → api_data st = ((200, Json.arr []), st)) := by
  refine ⟨rfl, rfl, rfl, ?_⟩
  intro h
  simp [api_data, h]

/-- Witness for C6: a fresh state serves the empty JSON array with
status 200 and is returned unchanged. -/
theorem api_data_read_only_witness :
    api_data ⟨[], [headerRow]⟩ = ((200, Json.arr []), ⟨[], [headerRow]⟩) :=
  (api_data_read_only ⟨[], [headerRow]⟩).2.2.2 rfl

/-- C8: if neither candidate location of the underlying data source
exists at startup, `main` aborts before dispatching any command; and any
dispatched command runs only with a located data source path (one of the
candidates, which exists). -/
theorem source_unavailable_aborts (pathExists : String → Bool) (home : String)
    (cmd : Command) :
    ((∀ p ∈ possiblePaths home, pathExists p = false) →
      main pathExists home cmd = MainResult.abortedNoSource) ∧
    (∀ p c, main pathExists home cmd = MainResult.ran p c →
      c = cmd ∧ p ∈ possiblePaths home ∧ pathExists p = true) := by
  constructor
  · intro h
    have hf : find_database_file pathExists home = none := by
      apply List.find?_eq_none.mpr
      intro x hx
      simp [h x hx]
    simp [main, hf]
  · intro p c hm
    unfold main at hm
    cases hf : find_database_file pathExists home with
    | none => rw [hf] at hm; cases hm
    | some q =>
      rw [hf] at hm
      cases hm
      exact ⟨rfl, List.mem_of_find?_eq_some hf, List.find?_some hf⟩

/-- Witness for C8: with no candidate path existing, `main` aborts and
the `dump` command body never runs. -/
theorem source_unavailable_aborts_witness :
    main (fun _ => false) "/home/u" (Command.dump "all_items.csv")
      = MainResult.abortedNoSource :=
  (source_unavailable_aborts (fun _ => false) "/home/u"
    (Command.dump "all_items.csv")).1 (fun _ _ => rfl)

/-- C5: an iteration in which the snapshot fetch fails, no record's name
matches exactly, or the matched record has no usable location leaves the
history and the log unchanged; and a whole run of such failed iterations
(e.g. three consecutive "device not found" ones) leaves the state
unchanged and is processed to the end (the fold consumes every
iteration: no per-iteration error terminates the loop). -/
theorem per_iteration_errors_isolated :
    (∀ (fmt : ℚ → String) (nm : String) (w : Bool) (inp : Option (List Item))
       (st : ServerState),
      (inp = none ∨ ∃ items, inp = some items ∧ extract fmt nm items = none) →
      track_for_server_step fmt nm w inp st = st) ∧
    (∀ (fmt : ℚ → String) (nm : String) (w : Bool)
       (inps : List (Option (List Item))) (st : ServerState),
      (∀ inp ∈ inps, inp = none ∨ ∃ items, inp = some items ∧ extract fmt nm items = none) →
      track_for_server_run fmt nm w inps st = st) := by
  refine ⟨step_failure_id, ?_⟩
  intro fmt nm w inps
  induction inps with
  | nil => intro st _; rfl
  | cons i t ih =>
    intro st h
    have hi := step_failure_id fmt nm w i st (h i (List.mem_cons_self i t))
    have ht : ∀ inp ∈ t, inp = none ∨ ∃ items, inp = some items ∧ extract fmt nm items = none :=
      fun inp hinp => h inp (List.mem_cons_of_mem i hinp)
    calc track_for_server_run fmt nm w (i :: t) st
        = track_for_server_run fmt nm w t (track_for_server_step fmt nm w i st) := rfl
      _ = track_for_server_run fmt nm w t st := by rw [hi]
      _ = st := ih st ht

/-- Witness for C5: three consecutive iterations that find no record
named "A" leave the history empty and the log at just the header. -/
theorem per_iteration_errors_isolated_witness :
    track_for_server_run fmtC "A" true [some [itmB], some [itmB], some [itmB]]
      ⟨[], [headerRow]⟩ = ⟨[], [headerRow]⟩ :=
  per_iteration_errors_isolated.2 fmtC "A" true
    [some [itmB], some [itmB], some [itmB]] ⟨[], [headerRow]⟩
    (by
      intro inp hinp
      simp only [List.mem_cons, List.not_mem_nil, or_false] at hinp
      rcases hinp with h | h | h
      all_goals subst h
      all_goals exact Or.inr ⟨[itmB], rfl, by decide⟩)

/-- C2: after every poller iteration (with the log write succeeding),
the in-memory history and the on-disk log agree in content — the log is
the header followed by exactly one row per history record, in order; and
a run whose three iterations observe timestamps T1, T1, T2 ends with
history [c1, c2] and a log of the header plus exactly the two
corresponding data rows. -/
theorem log_history_agreement :
    (∀ (fmt : ℚ → String) (nm : String) (inp : Option (List Item))
       (st : ServerState) (hdr : List Cell),
      st.log = hdr :: st.history.map coordToRow →
      (track_for_server_step fmt nm true inp st).log
        = hdr :: (track_for_server_step fmt nm true inp st).history.map coordToRow) ∧
    (∀ (fmt : ℚ → String) (nm : String) (L1 L2 L3 : List Item) (c1 c1x c2 : Coord),
      extract fmt nm L1 = some c1 → extract fmt nm L2 = some c1x →
      extract fmt nm L3 = some c2 → c1x.ts = c1.ts → c2.ts ≠ c1.ts →
      track_for_server_run fmt nm true [some L1, some L2, some L3] ⟨[], [headerRow]⟩
        = ⟨[c1, c2], [headerRow, coordToRow c1, coordToRow c2]⟩) := by
  constructor
  · intro fmt nm inp st hdr hag
    cases inp with
    | none => simpa [track_for_server_step] using hag
    | some items =>
      cases he : items.isEmpty with
      | true => simpa [track_for_server_step, he] using hag
      | false =>
        cases hx : extract fmt nm items with
        | none => simpa [track_for_server_step, he, hx] using hag
        | some c =>
          have hs : track_for_server_step fmt nm true (some items) st
              = appendAndPersist true st c := by
            simp [track_for_server_step, he, hx]
          rcases append_eq_or st.history c with ha | ha
          · rw [hs]
            simp [appendAndPersist, ha, hag]
          · rw [hs]
            simp [appendAndPersist, ha, hag]
  · intro fmt nm L1 L2 L3 c1 c1x c2 h1 h2 h3 hts hne
    have e1 := step_extract_some fmt nm true L1 ⟨[], [headerRow]⟩ c1 h1
    have a1 : appendAndPersist true ⟨[], [headerRow]⟩ c1
        = ⟨[c1], [headerRow, coordToRow c1]⟩ := by
      simp [appendAndPersist, append, lastTs]
    have e2 := step_extract_some fmt nm true L2 ⟨[c1], [headerRow, coordToRow c1]⟩ c1x h2
    have a2 : appendAndPersist true ⟨[c1], [headerRow, coordToRow c1]⟩ c1x
        = ⟨[c1], [headerRow, coordToRow c1]⟩ := by
      have hd : append [c1] c1x = ([c1], false) := by
        simp [append, lastTs, hts]
      simp [appendAndPersist, hd]
    have e3 := step_extract_some fmt nm true L3 ⟨[c1], [headerRow, coordToRow c1]⟩ c2 h3
    have a3 : appendAndPersist true ⟨[c1], [headerRow, coordToRow c1]⟩ c2
        = ⟨[c1, c2], [headerRow, coordToRow c1, coordToRow c2]⟩ := by
      have hne2 : ¬ c1.ts = c2.ts := fun he => hne he.symm
      simp [appendAndPersist, append, lastTs, hne2]
    calc track_for_server_run fmt nm true [some L1, some L2, some L3] ⟨[], [headerRow]⟩
        = track_for_server_step fmt nm true (some L3)
            (track_for_server_step fmt nm true (some L2)
              (track_for_server_step fmt nm true (some L1) ⟨[], [headerRow]⟩)) := rfl
      _ = ⟨[c1, c2], [headerRow, coordToRow c1, coordToRow c2]⟩ := by
          rw [e1, a1, e2, a2, e3, a3]

/-- Witness for C2: an agreeing fresh state still agrees after a
failed-fetch iteration, and the concrete run observing timestamps
"T1", "T1", "T2" ends with two history records and two data rows. -/
theorem log_history_agreement_witness :
    (track_for_server_step fmtC "A" true none ⟨[], [headerRow]⟩).log
      = headerRow :: (track_for_server_step fmtC "A" true none ⟨[], [headerRow]⟩).history.map coordToRow ∧
    track_for_server_run fmtC "A" true [some [itm1], some [itm1], some [itm2]]
      ⟨[], [headerRow]⟩
      = ⟨[cT1, cT2], [headerRow, coordToRow cT1, coordToRow cT2]⟩ :=
  ⟨log_history_agreement.1 fmtC "A" none ⟨[], [headerRow]⟩ headerRow rfl,
   log_history_agreement.2 fmtC "A" [itm1] [itm1] [itm2] cT1 cT1 cT2
     (by norm_num [extract, itm1, fmtC, cT1, List.find?])
     (by norm_num [extract, itm1, fmtC, cT1, List.find?])
     (by norm_num [extract, itm2, fmtC, cT2, List.find?])
     rfl (by decide)⟩

/-- C9: the append-then-persist step is not atomic — when the log write
fails (`writeOk = false`) on an accepted append, the record remains in
the in-memory history while the log is unchanged (the append is never
rolled back), the exception is absorbed at the iteration boundary, and
the run continues with the remaining iterations from that divergent
state. -/
theorem append_persist_not_atomic (fmt : ℚ → String) (nm : String)
    (items : List Item) (st : ServerState) (c : Coord)
    (hex : extract fmt nm items = some c)
    (hins : (append st.history c).2 = true) :
    track_for_server_step fmt nm false (some items) st
      = ⟨st.history ++ [c], st.log⟩ ∧
    ∀ rest, track_for_server_run fmt nm false (some items :: rest) st
      = track_for_server_run fmt nm false rest ⟨st.history ++ [c], st.log⟩ := by
  have hs := step_extract_some fmt nm false items st c hex
  have ha := append_snd_true st.history c hins
  have h1 : track_for_server_step fmt nm false (some items) st
      = ⟨st.history ++ [c], st.log⟩ := by
    rw [hs]
    simp [appendAndPersist, ha]
  refine ⟨h1, ?_⟩
  intro rest
  calc track_for_server_run fmt nm false (some items :: rest) st
      = track_for_server_run fmt nm false rest
          (track_for_server_step fmt nm false (some items) st) := rfl
    _ = track_for_server_run fmt nm false rest ⟨st.history ++ [c], st.log⟩ := by rw [h1]

/-- Witness for C9: from a fresh state, an accepted append with a failed
write leaves the record in memory and the log at just the header. -/
theorem append_persist_not_atomic_witness :
    track_for_server_step fmtC "A" false (some [itm1]) ⟨[], [headerRow]⟩
      = ⟨[cT1], [headerRow]⟩ :=
  (append_persist_not_atomic fmtC "A" [itm1] ⟨[], [headerRow]⟩ cT1
    (by norm_num [extract, itm1, fmtC, cT1, List.find?]) (by decide)).1

/-- C10: a matched device record whose location has a non-null latitude
but no `timeStamp` field is not skipped — the timestamp defaults to 0
milliseconds, so the extracted coordinate carries the epoch-derived
timestamp string `fmt 0`, and that coordinate is offered to the locked
append-and-persist section. -/
theorem missing_timeStamp_epoch_default (fmt : ℚ → String) (nm : String)
    (items : List Item) (it : Item) (loc : Location) (la : ℚ)
    (hf : items.find? (fun i => i.name == some nm) = some it)
    (hl : it.location = some loc) (hla : loc.latitude = some la)
    (hts : loc.timeStamp = none) :
    extract fmt nm items = some ⟨fmt 0, la, loc.longitude⟩ ∧
    ∀ (w : Bool) (st : ServerState),
      track_for_server_step fmt nm w (some items) st
        = appendAndPersist w st ⟨fmt 0, la, loc.longitude⟩ := by
  have hx : extract fmt nm items = some ⟨fmt 0, la, loc.longitude⟩ := by
    have hz : loc.timeStamp.getD 0 / 1000 = (0 : ℚ) := by
      rw [hts]
      norm_num
    simp [extract, hf, hl, hla, hz]
  exact ⟨hx, fun w st => step_extract_some fmt nm w items st _ hx⟩

/-- Witness for C10: a record named "A" with latitude 5 and no
`timeStamp` extracts to the coordinate with timestamp string `fmtC 0`. -/
theorem missing_timeStamp_epoch_default_witness :
    extract fmtC "A" [itmNoTs] = some ⟨fmtC 0, 5, some 6⟩ :=
  (missing_timeStamp_epoch_default fmtC "A" [itmNoTs] itmNoTs
    ⟨some 5, some 6, none⟩ 5 (by decide) rfl rfl rfl).1

/-- C7: round trip — for a sequence of records with pairwise-distinct
consecutive timestamps (and numeric longitudes, as the data model's
Coordinate Records have), appending them all from a fresh state inserts
each one and writes one log row per record, and reloading the resulting
log file reproduces the identical ordered sequence (here exactly, since
Python's float/str round-trip is exact). -/
theorem round_trip_reload (recs : List Coord)
    (hch : List.Chain' (fun a b => a.ts ≠ b.ts) recs)
    (hlon : ∀ c ∈ recs, c.lon.isSome) :
    recs.foldl (appendAndPersist true) ⟨[], [headerRow]⟩
      = ⟨recs, headerRow :: recs.map coordToRow⟩ ∧
    reload (headerRow :: recs.map coordToRow) = recs := by
  constructor
  · have hrun := run_persist_all recs [] [headerRow] hch
      (by intro r _; simp [lastTs])
    simpa using hrun
  · unfold reload
    rw [show (headerRow :: recs.map coordToRow).drop 1 = recs.map coordToRow from rfl]
    simpa using reloadLoop_coordToRow recs [] hlon

/-- Witness for C7: the two rows of end-to-end scenario C round-trip
through the log in order. -/
theorem round_trip_reload_witness :
    reload (headerRow ::
        [(⟨"2024-01-01 00:00:00", 1, some 2⟩ : Coord),
         ⟨"2024-01-01 00:01:00", 11/10, some (21/10)⟩].map coordToRow)
      = [⟨"2024-01-01 00:00:00", 1, some 2⟩,
         ⟨"2024-01-01 00:01:00", 11/10, some (21/10)⟩] :=
  (round_trip_reload
    [⟨"2024-01-01 00:00:00", 1, some 2⟩, ⟨"2024-01-01 00:01:00", 11/10, some (21/10)⟩]
    (by simp [List.chain'_cons])
    (by simp)).2

/-- C3 counterexample: in the log `badLogC3` the first data row has a
non-numeric latitude cell and the second data row is well-formed, yet
the reload yields the empty history — the `except` around the whole row
loop aborts on the `ValueError`, so the bad row does prevent the later
well-formed row from being restored; the same well-formed row alone is
restored fine. -/
theorem reload_bad_row_aborts_counterexample :
    reload badLogC3 = [] ∧
    reload [headerRow, [Cell.ofStr "2024-01-01 00:01:00", Cell.ofNum 3, Cell.ofNum 4]]
      = [⟨"2024-01-01 00:01:00", 3, some 4⟩] :=
  ⟨rfl, rfl⟩

/-- C3 (amended): reload processes rows individually only for the
column-count check — a row with fewer than three cells is skipped and
parsing continues with the next row; but a row with at least three cells
whose latitude or longitude cell is not parseable as a float aborts the
remainder of the reload (one logged warning), keeping only the rows
restored before it. -/
theorem reload_short_skip_badnum_abort :
    (∀ (pre : List (List Cell)) (bad : List Cell) (post : List (List Cell))
       (acc : List Coord),
      bad.length < 3 →
      reloadLoop (pre ++ bad :: post) acc = reloadLoop (pre ++ post) acc) ∧
    (∀ (c0 c1 c2 : Cell) (tail : List Cell) (post : List (List Cell))
       (acc : List Coord),
      c1.parseFloat? = none ∨ c2.parseFloat? = none →
      reloadLoop ((c0 :: c1 :: c2 :: tail) :: post) acc = acc) := by
  constructor
  · intro pre
    induction pre with
    | nil =>
      intro bad post acc hlen
      rcases bad with _ | ⟨a, _ | ⟨b, _ | ⟨c, t⟩⟩⟩
      · simp [reloadLoop]
      · simp [reloadLoop]
      · simp [reloadLoop]
      · simp only [List.length_cons] at hlen
        omega
    | cons p pre ih =>
      intro bad post acc hlen
      rcases p with _ | ⟨a, _ | ⟨b, _ | ⟨c, t⟩⟩⟩
      · simpa [reloadLoop] using ih bad post acc hlen
      · simpa [reloadLoop] using ih bad post acc hlen
      · simpa [reloadLoop] using ih bad post acc hlen
      · cases hb : b.parseFloat? with
        | none => simp [reloadLoop, hb]
        | some la =>
          cases hc2 : c.parseFloat? with
          | none => simp [reloadLoop, hb, hc2]
          | some lo =>
            simpa [reloadLoop, hb, hc2]
              using ih bad post (acc ++ [⟨a.asText, la, some lo⟩]) hlen
  · intro c0 c1 c2 tail post acc h
    rcases h with h | h
    · simp [reloadLoop, h]
    · cases hc1 : c1.parseFloat? with
      | none => simp [reloadLoop, hc1]
      | some la => simp [reloadLoop, hc1, h]

/-- Witness for the amended C3: a one-cell row among good rows is
skipped with parsing continuing, and a row with a non-numeric latitude
cell stops the reload at once. -/
theorem reload_short_skip_badnum_abort_witness :
    reloadLoop [[Cell.ofStr "x"], [Cell.ofStr "t", Cell.ofNum 1, Cell.ofNum 2]] []
      = reloadLoop [[Cell.ofStr "t", Cell.ofNum 1, Cell.ofNum 2]] [] ∧
    reloadLoop [[Cell.ofStr "t", Cell.ofStr "abc", Cell.ofNum 2],
        [Cell.ofStr "u", Cell.ofNum 3, Cell.ofNum 4]] [] = [] :=
  ⟨reload_short_skip_badnum_abort.1 [] [Cell.ofStr "x"]
      [[Cell.ofStr "t", Cell.ofNum 1, Cell.ofNum 2]] [] (by decide),
   reload_short_skip_badnum_abort.2 (Cell.ofStr "t") (Cell.ofStr "abc") (Cell.ofNum 2)
      [] [[Cell.ofStr "u", Cell.ofNum 3, Cell.ofNum 4]] [] (Or.inl rfl)⟩

end Tracker
